import Mathlib

/-!
Verification of the SSE transport of `mcp-durable-object-client`
(`src/transport.ts`), together with the message codec it relies on.

The embedding covers:

* a model of JSON values and of the platform's `JSON.stringify` /
  `JSON.parse` (ECMA-262), restricted to integer numerals — floating-point
  values are outside the embedding, and the JSON-RPC traffic the transport
  carries in the claims uses none;
* a model of the JSON-RPC message schema (`JSONRPCMessageSchema` from the
  MCP SDK, an external dependency), written from the specification's
  description of the codec contract;
* the WHATWG `ReadableStream` bookkeeping the transport manipulates
  (queue, close-requested flag, stream state, lock), as far as
  `enqueue` / `close` / `cancel` are concerned;
* the `ServerSentEventsTransport` class itself: its constructor,
  `start`, `send`, `close`, `handlePostMessage`, `handleMessage`, and the
  peer-initiated cancellation path;
* the session registry described by the specification (the repository has
  no registry implementation under `src/`, so it is modelled from the
  specification's contract).

Callback invocations (`onmessage` / `onclose` / `onerror`) and the moment
the body parse is attempted are recorded in an event trace, so that
"invoked exactly once" style properties are statements about lists.
-/

/-! ### JSON values -/

/-- A JSON value as produced by `JSON.parse`.  Numerals are restricted to
integers in this model: the transport's claims never exercise fractional
or exponent numerals, and floating point is outside the embedding. -/
inductive JVal where
  | jnull : JVal
  | jbool : Bool → JVal
  | jnum : Int → JVal
  | jstr : String → JVal
  | jarr : List JVal → JVal
  | jobj : List (String × JVal) → JVal

/-! ### Character helpers -/

/-- Decimal digit character for `d < 10` (`'0'` has code 48). -/
def digitOf (d : Nat) : Char := Char.ofNat (48 + d)

/-- Lowercase hexadecimal digit character, as ECMA-262's `UnicodeEscape`
produces (`JSON.stringify` emits lowercase `\u00xx` escapes). -/
def hexOf (d : Nat) : Char :=
  if d < 10 then Char.ofNat (48 + d) else Char.ofNat (87 + d)

/-- Value of a hexadecimal digit character, if it is one. -/
def hexDigVal (c : Char) : Option Nat :=
  if 48 ≤ c.toNat ∧ c.toNat ≤ 57 then some (c.toNat - 48)
  else if 97 ≤ c.toNat ∧ c.toNat ≤ 102 then some (c.toNat - 87)
  else if 65 ≤ c.toNat ∧ c.toNat ≤ 70 then some (c.toNat - 55)
  else none

/-- The JSON whitespace set (`JSON.parse` skips exactly these). -/
def jsWs (c : Char) : Bool := c = ' ' ∨ c = '\t' ∨ c = '\n' ∨ c = '\r'

/-- Drop leading JSON whitespace. -/
def dropWs : List Char → List Char
  | [] => []
  | c :: r => if jsWs c then dropWs r else c :: r

/-! ### `JSON.stringify` (ECMA-262 `QuoteJSONString` and friends) -/

/-- Escape one character the way `JSON.stringify` quotes string data:
`"` and `\` get a backslash, the five short control escapes are used where
defined, other control characters become `\u00xx`, and everything else is
emitted literally. -/
def escChar (c : Char) : List Char :=
  if c = '"' then ['\\', '"']
  else if c = '\\' then ['\\', '\\']
  else if c = Char.ofNat 8 then ['\\', 'b']
  else if c = '\t' then ['\\', 't']
  else if c = '\n' then ['\\', 'n']
  else if c = Char.ofNat 12 then ['\\', 'f']
  else if c = '\r' then ['\\', 'r']
  else if c.toNat < 32 then
    ['\\', 'u', '0', '0', hexOf (c.toNat / 16), hexOf (c.toNat % 16)]
  else [c]

/-- A quoted JSON string literal for the character list `l`. -/
def quoteChars (l : List Char) : List Char :=
  '"' :: (l.flatMap escChar ++ ['"'])

/-- Decimal digit characters of a natural number, most significant first. -/
def natChars (n : Nat) : List Char :=
  if _h : n < 10 then [digitOf n]
  else natChars (n / 10) ++ [digitOf (n % 10)]
termination_by n
decreasing_by exact Nat.div_lt_self (by omega) (by omega)

/-- Decimal rendering of an integer, as `JSON.stringify` prints an
integral number. -/
def intChars (i : Int) : List Char :=
  if i < 0 then '-' :: natChars i.natAbs else natChars i.natAbs

mutual
/-- Model of `JSON.stringify`, to a character list: no added whitespace, object
members in their stored order. -/
def jRender : JVal → List Char
  | .jnull => ['n', 'u', 'l', 'l']
  | .jbool true => ['t', 'r', 'u', 'e']
  | .jbool false => ['f', 'a', 'l', 's', 'e']
  | .jnum i => intChars i
  | .jstr s => quoteChars s.data
  | .jarr vs => '[' :: (jRenderItems vs ++ [']'])
  | .jobj ms => '{' :: (jRenderFields ms ++ ['}'])

/-- Comma-separated renderings of the elements of an array. -/
def jRenderItems : List JVal → List Char
  | [] => []
  | v :: vs => jRender v ++ jRenderItemsTail vs

/-- Remaining array elements, each preceded by a comma. -/
def jRenderItemsTail : List JVal → List Char
  | [] => []
  | v :: vs => ',' :: (jRender v ++ jRenderItemsTail vs)

/-- Comma-separated `"key":value` renderings of an object's members. -/
def jRenderFields : List (String × JVal) → List Char
  | [] => []
  | (k, v) :: ms => quoteChars k.data ++ ':' :: (jRender v ++ jRenderFieldsTail ms)

/-- Remaining object members, each preceded by a comma. -/
def jRenderFieldsTail : List (String × JVal) → List Char
  | [] => []
  | (k, v) :: ms =>
      ',' :: (quoteChars k.data ++ ':' :: (jRender v ++ jRenderFieldsTail ms))
end

/-- Model of `JSON.stringify` as a whole-string function on a whole value. -/
def jsonStringify (v : JVal) : String := String.mk (jRender v)

/-! ### `JSON.parse` -/

/-- Leading run of decimal digits, with the remainder. -/
def grabDigits : List Char → List Char × List Char
  | [] => ([], [])
  | c :: r =>
      if c.isDigit then
        let p := grabDigits r
        (c :: p.1, p.2)
      else ([], c :: r)

/-- Value of a big-endian digit-character run. -/
def digitsVal (ds : List Char) : Nat :=
  ds.foldl (fun a c => a * 10 + (c.toNat - 48)) 0

/-- Short escapes accepted after a backslash by `JSON.parse`. -/
def unescChar : Char → Option Char
  | '"' => some '"'
  | '\\' => some '\\'
  | '/' => some '/'
  | 'b' => some (Char.ofNat 8)
  | 'f' => some (Char.ofNat 12)
  | 'n' => some '\n'
  | 'r' => some '\r'
  | 't' => some '\t'
  | _ => none

/-- Combine four hexadecimal digits into a code point. -/
def hexQuad (a b c d : Char) : Option Nat := do
  let x ← hexDigVal a
  let y ← hexDigVal b
  let z ← hexDigVal c
  let w ← hexDigVal d
  pure (((x * 16 + y) * 16 + z) * 16 + w)

mutual
/-- Scan a JSON string body after the opening quote: literal characters,
short escapes, and `\uXXXX` escapes, up to the closing quote.  A raw
control character is rejected, as `JSON.parse` does.  `\uXXXX` escapes in
the surrogate range are rejected (a lone UTF-16 surrogate has no scalar
value, so no `Char` represents it — a declared model boundary). -/
def strBody : List Char → Option (List Char × List Char)
  | [] => none
  | c :: r =>
      if c = '"' then some ([], r)
      else if c = '\\' then strEsc r
      else if c.toNat < 32 then none
      else (strBody r).map (fun p => (c :: p.1, p.2))
termination_by cs => (cs.length, 0)

/-- The continuation of `strBody` after a backslash. -/
def strEsc : List Char → Option (List Char × List Char)
  | [] => none
  | e :: r2 => if e = 'u' then strHex r2 else strShort e r2
termination_by cs => (cs.length, 3)

/-- A short escape: the escaped character, then the rest of the body. -/
def strShort (e : Char) (r2 : List Char) : Option (List Char × List Char) :=
  match unescChar e with
  | none => none
  | some ch => (strBody r2).map (fun p => (ch :: p.1, p.2))
termination_by (r2.length, 2)

/-- A `\uXXXX` escape: four hex digits, then the rest of the body. -/
def strHex : List Char → Option (List Char × List Char)
  | a :: b :: g :: d :: r3 => strCode (hexQuad a b g d) r3
  | _ => none
termination_by cs => (cs.length, 2)

/-- Finish a `\uXXXX` escape from its decoded code point. -/
def strCode : Option Nat → List Char → Option (List Char × List Char)
  | none, _ => none
  | some n, r3 =>
      if n < 0xd800 ∨ (0xe000 ≤ n ∧ n < 0x110000) then
        (strBody r3).map (fun p => (Char.ofNat n :: p.1, p.2))
      else none
termination_by _ r3 => (r3.length, 1)
end

/-- Leading natural-number token per the JSON grammar: a digit run with no
redundant leading zero, not continued by `.`, `e` or `E` (a continuation
would denote a non-integer, which this model excludes). -/
def natToken (cs : List Char) : Option (Nat × List Char) :=
  let p := grabDigits cs
  match p.1 with
  | [] => none
  | d :: ds =>
      if d = '0' ∧ ds ≠ [] then none
      else
        match p.2 with
        | [] => some (digitsVal (d :: ds), [])
        | e :: r =>
            if e = '.' ∨ e = 'e' ∨ e = 'E' then none
            else some (digitsVal (d :: ds), e :: r)

/-- Leading integer token: optional minus sign, then a natural token. -/
def intToken : List Char → Option (Int × List Char)
  | [] => none
  | c :: r =>
      if c = '-' then (natToken r).map (fun p => (-(p.1 : Int), p.2))
      else (natToken (c :: r)).map (fun p => ((p.1 : Int), p.2))

/-- The tail of the keyword `null` after its `n`. -/
def litNull : List Char → Option (JVal × List Char)
  | 'u' :: 'l' :: 'l' :: r2 => some (.jnull, r2)
  | _ => none

/-- The tail of the keyword `true` after its `t`. -/
def litTrue : List Char → Option (JVal × List Char)
  | 'r' :: 'u' :: 'e' :: r2 => some (.jbool true, r2)
  | _ => none

/-- The tail of the keyword `false` after its `f`. -/
def litFalse : List Char → Option (JVal × List Char)
  | 'a' :: 'l' :: 's' :: 'e' :: r2 => some (.jbool false, r2)
  | _ => none

mutual
/-- Fuelled recursive-descent JSON value scanner: returns the value and
the unconsumed remainder.  Dispatch is on the first non-whitespace
character, mirroring `JSON.parse`'s grammar (with integer numerals). -/
def jScan : Nat → List Char → Option (JVal × List Char)
  | 0, _ => none
  | f + 1, cs =>
    match dropWs cs with
    | [] => none
    | c :: r =>
      if c = 'n' then litNull r
      else if c = 't' then litTrue r
      else if c = 'f' then litFalse r
      else if c = '"' then
        (strBody r).map (fun p => (.jstr (String.mk p.1), p.2))
      else if c = '[' then
        match dropWs r with
        | [] => none
        | c1 :: r1 =>
            if c1 = ']' then some (.jarr [], r1)
            else (jScanItems f (c1 :: r1)).map (fun p => (.jarr p.1, p.2))
      else if c = '{' then
        match dropWs r with
        | [] => none
        | c1 :: r1 =>
            if c1 = '}' then some (.jobj [], r1)
            else (jScanFields f (c1 :: r1)).map (fun p => (.jobj p.1, p.2))
      else if c = '-' ∨ c.isDigit then
        (intToken (c :: r)).map (fun p => (.jnum p.1, p.2))
      else none

/-- One or more comma-separated array elements, consuming the closing
bracket. -/
def jScanItems : Nat → List Char → Option (List JVal × List Char)
  | 0, _ => none
  | f + 1, cs => do
    let p ← jScan f cs
    match dropWs p.2 with
    | [] => none
    | c1 :: r2 =>
        if c1 = ',' then do
          let q ← jScanItems f r2
          pure (p.1 :: q.1, q.2)
        else if c1 = ']' then pure ([p.1], r2)
        else none

/-- One or more comma-separated object members, consuming the closing
brace. -/
def jScanFields : Nat → List Char → Option (List (String × JVal) × List Char)
  | 0, _ => none
  | f + 1, cs =>
    match dropWs cs with
    | [] => none
    | c0 :: r =>
        if c0 = '"' then do
          let kp ← strBody r
          match dropWs kp.2 with
          | [] => none
          | c1 :: r2 =>
              if c1 = ':' then do
                let vp ← jScan f r2
                match dropWs vp.2 with
                | [] => none
                | c2 :: r3 =>
                    if c2 = ',' then do
                      let q ← jScanFields f r3
                      pure ((String.mk kp.1, vp.1) :: q.1, q.2)
                    else if c2 = '}' then pure ([(String.mk kp.1, vp.1)], r3)
                    else none
              else none
        else none
end

/-- Model of `JSON.parse`: scan one value with ample fuel and insist that only
whitespace follows it. -/
def jsonParse (s : String) : Option JVal :=
  match jScan (2 * s.data.length + 2) s.data with
  | some (v, r) => if dropWs r = [] then some v else none
  | none => none

/-! ### JSON-RPC messages and their schema -/

/-- A JSON-RPC request id: a string or an (integral) number. -/
inductive RpcId where
  | rstr : String → RpcId
  | rnum : Int → RpcId

/-- A valid JSON-RPC message: request, notification, success response, or
error response — the mutually exclusive variants of the wire schema. -/
inductive RpcMessage where
  | request : RpcId → String → Option (List (String × JVal)) → RpcMessage
  | notification : String → Option (List (String × JVal)) → RpcMessage
  | response : RpcId → JVal → RpcMessage
  | errorResponse : RpcId → Int → String → Option JVal → RpcMessage

/-- JSON form of a request id. -/
def rpcIdJson : RpcId → JVal
  | .rstr s => .jstr s
  | .rnum n => .jnum n

/-- Read a request id back from its JSON form. -/
def jvalId : JVal → Option RpcId
  | .jstr s => some (.rstr s)
  | .jnum n => some (.rnum n)
  | _ => none

/-- The `params` member, when present (always a JSON object). -/
def paramsField : Option (List (String × JVal)) → List (String × JVal)
  | none => []
  | some p => [("params", .jobj p)]

/-- The error object's optional `data` member. -/
def dataField : Option JVal → List (String × JVal)
  | none => []
  | some d => [("data", d)]

/-- JSON form of a message, as the transport serializes it in `send`. -/
def msgJson : RpcMessage → JVal
  | .request i m p =>
      .jobj ([("jsonrpc", .jstr "2.0"), ("id", rpcIdJson i), ("method", .jstr m)]
        ++ paramsField p)
  | .notification m p =>
      .jobj ([("jsonrpc", .jstr "2.0"), ("method", .jstr m)] ++ paramsField p)
  | .response i res =>
      .jobj [("jsonrpc", .jstr "2.0"), ("id", rpcIdJson i), ("result", res)]
  | .errorResponse i c msg d =>
      .jobj [("jsonrpc", .jstr "2.0"), ("id", rpcIdJson i),
        ("error", .jobj (("code", .jnum c) :: ("message", .jstr msg) :: dataField d))]

/-- First binding of a key in a JSON object's member list. -/
def getF : List (String × JVal) → String → Option JVal
  | [], _ => none
  | (k1, v) :: r, k => if k1 = k then some v else getF r k

/-- Read back an optional `params` member: absent, or a JSON object. -/
def jvalParams : Option JVal → Option (Option (List (String × JVal)))
  | none => some none
  | some (.jobj p) => some (some p)
  | some _ => none

/-- Modelled from the spec: the JSON-RPC message schema
(`JSONRPCMessageSchema` of the MCP SDK, an external dependency not under
`src/`).  Per §4.1 of the specification, a message must be a request, a
response, or a notification — mutually exclusive variants distinguished
by the presence of `id` / `method` / `result` / `error` — with
`jsonrpc: "2.0"`, a string `method`, an object `params` when present, and
a string-or-number `id`. -/
def schemaCheck : JVal → Option RpcMessage
  | .jobj kvs =>
      match getF kvs "jsonrpc" with
      | some (.jstr ver) =>
          if ver = "2.0" then
            match getF kvs "method" with
            | some (.jstr m) =>
                (match getF kvs "id" with
                 | none =>
                     (match jvalParams (getF kvs "params") with
                      | some p => some (.notification m p)
                      | none => none)
                 | some idj =>
                     (match jvalId idj, jvalParams (getF kvs "params") with
                      | some i, some p => some (.request i m p)
                      | _, _ => none))
            | some _ => none
            | none =>
                match getF kvs "result", getF kvs "error" with
                | some res, none =>
                    (match getF kvs "id" with
                     | some idj => (jvalId idj).map (fun i => .response i res)
                     | none => none)
                | none, some (.jobj ek) =>
                    (match getF kvs "id", getF ek "code", getF ek "message" with
                     | some idj, some (.jnum c), some (.jstr msg) =>
                         (jvalId idj).map (fun i => .errorResponse i c msg (getF ek "data"))
                     | _, _, _ => none)
                | _, _ => none
          else none
      | _ => none
  | _ => none

/-- The serialization `send` applies: `JSON.stringify(message)`. -/
def encodeRpc (m : RpcMessage) : String := jsonStringify (msgJson m)

/-- The schema-validating parse of an inbound body: `request.json()`
followed by `JSONRPCMessageSchema.parse`. -/
def decodeRpc (s : String) : Option RpcMessage := (jsonParse s).bind schemaCheck

/-! ### Platform string helpers used by the transport -/

/-- UTF-8 code units of one scalar value. -/
def utf8Bytes (c : Char) : List Nat :=
  let n := c.toNat
  if n < 0x80 then [n]
  else if n < 0x800 then [0xc0 + n / 64, 0x80 + n % 64]
  else if n < 0x10000 then
    [0xe0 + n / 4096, 0x80 + n / 64 % 64, 0x80 + n % 64]
  else [0xf0 + n / 262144, 0x80 + n / 4096 % 64, 0x80 + n / 64 % 64, 0x80 + n % 64]

/-- The byte length of a string when UTF-8 encoded, as `TextEncoder`
produces and as `Content-Length` counts. -/
def byteLen (s : String) : Nat := (s.data.map Char.utf8Size).sum

/-- Uppercase hexadecimal digit, as percent-encoding emits. -/
def hexUp (d : Nat) : Char :=
  if d < 10 then Char.ofNat (48 + d) else Char.ofNat (55 + d)

/-- Characters `encodeURI` leaves intact: ECMA-262's `uriReserved`,
`uriUnescaped` and `#`. -/
def uriKeep (c : Char) : Bool :=
  c.isAlpha ∨ c.isDigit ∨
    c ∈ [';', '/', '?', ':', '@', '&', '=', '+', '$', ',',
         '-', '_', '.', '!', '~', '*', '\'', '(', ')', '#']

/-- ECMA-262 `encodeURI`: keep the unreserved/reserved set, percent-encode
every other character's UTF-8 bytes. -/
def encodeURI (s : String) : String :=
  String.mk (s.data.flatMap (fun c =>
    if uriKeep c then [c]
    else (utf8Bytes c).flatMap (fun b => ['%', hexUp (b / 16), hexUp (b % 16)])))

/-- Leading digit run as a number, if any (`parseInt` keeps any trailing
garbage). -/
def leadNat (cs : List Char) : Option Nat :=
  match grabDigits cs with
  | ([], _) => none
  | (ds, _) => some (digitsVal ds)

/-- Model of `Number.parseInt(s, 10)`: skip leading whitespace, read an optional
sign and then leading decimal digits; `none` models `NaN`. -/
def parseIntJs (s : String) : Option Int :=
  match dropWs s.data with
  | [] => none
  | c :: r =>
      if c = '-' then (leadNat r).map (fun n => -(n : Int))
      else if c = '+' then (leadNat r).map (fun n => (n : Int))
      else (leadNat (c :: r)).map (fun n => (n : Int))

/-! ### The WHATWG stream state touched by the transport

`ServerSentEventsTransport` owns one `ReadableStream` and its default
controller.  The model keeps the observable bookkeeping of the streams
standard: the chunk queue, the close-requested flag, the stream state and
the lock.  `cancel()` on an unlocked readable stream closes it, clears
the queue and runs the underlying source's cancel hook; on a locked,
closed or errored stream it runs no hook (a rejected or already-settled
promise, which `close()` ignores). -/

inductive SState where
  | readable : SState
  | closed : SState
  | errored : SState
deriving DecidableEq

structure StreamSt where
  queue : List String
  closeRequested : Bool
  sstate : SState
  locked : Bool
deriving DecidableEq

/-- Message of the `TypeError` the stream operations throw on misuse. -/
def typeErrorMsg : String := "TypeError"

/-- Model of `controller.enqueue(chunk)`. -/
def ctrlEnqueue (s : StreamSt) (chunk : String) : Except String StreamSt :=
  if s.closeRequested ∨ s.sstate ≠ .readable then .error typeErrorMsg
  else .ok { s with queue := s.queue ++ [chunk] }

/-- Model of `controller.close()`: with an empty queue the stream closes at once,
otherwise closing is recorded as requested and the stream stays readable
until the queue drains. -/
def ctrlClose (s : StreamSt) : Except String StreamSt :=
  if s.closeRequested ∨ s.sstate ≠ .readable then .error typeErrorMsg
  else if s.queue = [] then .ok { s with closeRequested := true, sstate := .closed }
  else .ok { s with closeRequested := true }

/-- Model of `stream.cancel()` as `close()` calls it: the returned flag records
whether the underlying source's cancel hook ran. -/
def streamCancel (s : StreamSt) : Bool × StreamSt :=
  if s.locked then (false, s)
  else
    match s.sstate with
    | .readable => (true, { s with queue := [], sstate := .closed })
    | _ => (false, s)

/-! ### The transport -/

/-- Observable callback and stream activity of one transport operation:
`enq` is a `controller.enqueue`, `closeCb` / `errCb` / `msgCb` are the
`onclose?.()` / `onerror?.(e)` / `onmessage?.(m)` call sites executing,
and `bodyParse` marks `await request.json()` being reached. -/
inductive TEvent where
  | enq : String → TEvent
  | closeCb : TEvent
  | errCb : String → TEvent
  | msgCb : RpcMessage → TEvent
  | bodyParse : TEvent

/-- Maximum allowed message size (4MB), `MAX_MSG_SIZE` in the source. -/
def MAX_MSG_SIZE : Nat := 4 * 1024 * 1024

/-- State of one `ServerSentEventsTransport`: the two constructor
arguments, whether `#streamController` is non-null, the `#isActive` flag,
and the owned stream's state. -/
structure ServerSentEventsTransport where
  endpointUrl : String
  sessionId : String
  streamController : Bool
  isActive : Bool
  stream : StreamSt
deriving DecidableEq

/-- The constructor `new ServerSentEventsTransport(endpointUrl, sessionId)`: the
`ReadableStream` constructor runs the underlying source's `start`
synchronously, so the controller reference is set, the stream is readable
with an empty queue, and the transport is not yet active. -/
def ServerSentEventsTransport.create (endpointUrl sessionId : String) :
    ServerSentEventsTransport :=
  { endpointUrl, sessionId, streamController := true, isActive := false,
    stream := { queue := [], closeRequested := false, sstate := .readable,
                locked := false } }

/-- Message of the error `start` throws when already active. -/
def alreadyActiveMsg : String := "Transport already active - cannot start again"

/-- Message of the error `start` throws when the controller is missing. -/
def streamUnavailableMsg : String :=
  "Stream initialization failed - controller not available"

/-- Message of the error `send` throws outside the active state. -/
def notConnectedMsg : String := "Cannot send: transport not connected"

/-- Stand-in for the `ZodError` message text of a failed
`JSONRPCMessageSchema.parse` (the exact wording lives in the external
SDK; no claim depends on it). -/
def zodValidationMsg : String := "Invalid JSON-RPC message"

/-- Stand-in for the `SyntaxError` message text of a failed
`request.json()` (exact wording is engine-defined). -/
def jsonSyntaxMsg : String := "Unexpected token in JSON"

/-- The framed `endpoint` announcement `start` enqueues. -/
def endpointChunk (url sid : String) : String :=
  "event: endpoint\ndata: " ++ encodeURI url ++ "?sessionId=" ++ sid ++ "\n\n"

/-- The framed SSE `message` event `send` enqueues. -/
def messageChunk (m : RpcMessage) : String :=
  "event: message\ndata: " ++ encodeRpc m ++ "\n\n"

/-- Method `start()`: guard the active flag, guard the controller, enqueue the
endpoint announcement, and only then become active. -/
def ServerSentEventsTransport.start (t : ServerSentEventsTransport) :
    Except String (ServerSentEventsTransport × List TEvent) :=
  if t.isActive then .error alreadyActiveMsg
  else if ¬t.streamController then .error streamUnavailableMsg
  else
    match ctrlEnqueue t.stream (endpointChunk t.endpointUrl t.sessionId) with
    | .error e => .error e
    | .ok s1 =>
        .ok ({ t with stream := s1, isActive := true },
          [.enq (endpointChunk t.endpointUrl t.sessionId)])

/-- Method `send(message)`: reject outside the active state, otherwise enqueue
one framed `message` event. -/
def ServerSentEventsTransport.send (t : ServerSentEventsTransport)
    (m : RpcMessage) : Except String (ServerSentEventsTransport × List TEvent) :=
  if ¬t.isActive ∨ ¬t.streamController then .error notConnectedMsg
  else
    match ctrlEnqueue t.stream (messageChunk m) with
    | .error e => .error e
    | .ok s1 => .ok ({ t with stream := s1 }, [.enq (messageChunk m)])

/-- Method `close()`: from the active state, `controller.close()`, then
`eventStream.cancel()` — whose underlying-source hook clears the active
flag and runs `onclose?.()` whenever it fires — then clear the active
flag and run `onclose?.()` again.  Anything else is a no-op. -/
def ServerSentEventsTransport.close (t : ServerSentEventsTransport) :
    Except String (ServerSentEventsTransport × List TEvent) :=
  if t.isActive ∧ t.streamController then
    match ctrlClose t.stream with
    | .error e => .error e
    | .ok s1 =>
        let hook := streamCancel s1
        let cancelEvs := if hook.1 then [TEvent.closeCb] else []
        .ok ({ t with stream := hook.2, isActive := false },
          cancelEvs ++ [TEvent.closeCb])
  else .ok (t, [])

/-- Peer-initiated cancellation of the GET stream (the client goes away):
the runtime cancels the stream through its reader, which runs the
underlying source's cancel hook when the stream is still readable —
clearing the active flag and invoking `onclose?.()`. -/
def ServerSentEventsTransport.peerCancel (t : ServerSentEventsTransport) :
    ServerSentEventsTransport × List TEvent :=
  match t.stream.sstate with
  | .readable =>
      let s1 : StreamSt := { t.stream with queue := [], sstate := .closed }
      ({ t with stream := s1, isActive := false }, [TEvent.closeCb])
  | _ => (t, [])

/-- Method `handleMessage(rawMessage)`: schema-validate, deliver to `onmessage`
on success; on failure invoke `onerror` and rethrow. -/
def ServerSentEventsTransport.handleMessage (j : JVal) :
    Except String Unit × List TEvent :=
  match schemaCheck j with
  | some m => (.ok (), [.msgCb m])
  | none => (.error zodValidationMsg, [.errCb zodValidationMsg])

/-- An inbound POST request as `handlePostMessage` reads it: the
`content-type` and `content-length` headers (absent headers read as
`null`, which `|| ''` / `|| '0'` replace) and the body text. -/
structure PostReq where
  contentType : Option String
  contentLength : Option String
  body : String
deriving DecidableEq

/-- An HTTP response: status and body text. -/
structure HttpOut where
  status : Nat
  body : String
deriving DecidableEq

/-- Whether `pre` is a prefix of `l`, by character comparison. -/
def charsPre : List Char → List Char → Bool
  | [], _ => true
  | _ :: _, [] => false
  | a :: pre, b :: l => if a = b then charsPre pre l else false

/-- Whether `needle` occurs contiguously inside `hay`
(`String.prototype.includes`). -/
def charsHave (needle : List Char) : List Char → Bool
  | [] => charsPre needle []
  | c :: r => if charsPre needle (c :: r) then true else charsHave needle r

/-- The source's content-type test:
`contentType.includes('application/json')`. -/
def ctHasJson (r : PostReq) : Bool :=
  charsHave "application/json".data (r.contentType.getD "").data

/-- The source's size test: `Number.parseInt(header || '0', 10)` compared
against `MAX_MSG_SIZE` (`NaN > MAX_MSG_SIZE` is false, so an unparseable
header never trips the cap). -/
def declaredOver (r : PostReq) : Bool :=
  match parseIntJs (r.contentLength.getD "0") with
  | some n => decide ((MAX_MSG_SIZE : Int) < n)
  | none => false

/-- Method `handlePostMessage(request)`: 503 outside the active state; then
content-type (415), declared size (413), body parse (400 on syntax
error), schema validation via `handleMessage` — whose error the catch
block reports to `onerror` a second time before answering 400 — and 202
on success. -/
def ServerSentEventsTransport.handlePostMessage
    (t : ServerSentEventsTransport) (r : PostReq) :
    ServerSentEventsTransport × HttpOut × List TEvent :=
  if ¬t.isActive ∨ ¬t.streamController then
    (t, { status := 503, body := "SSE connection not established" }, [])
  else if ¬ctHasJson r then
    (t, { status := 415,
          body := "Invalid content type: " ++ (r.contentType.getD "") }, [])
  else if declaredOver r then
    (t, { status := 413, body := "Message exceeds size limit" }, [])
  else
    match jsonParse r.body with
    | none =>
        (t, { status := 400, body := "Error processing message: " ++ jsonSyntaxMsg },
         [.bodyParse, .errCb jsonSyntaxMsg])
    | some j =>
        match ServerSentEventsTransport.handleMessage j with
        | (.ok _, evs) =>
            (t, { status := 202, body := "Message processed" }, .bodyParse :: evs)
        | (.error msg, evs) =>
            (t, { status := 400, body := "Error processing message: " ++ msg },
             .bodyParse :: (evs ++ [.errCb msg]))

/-- Run `n` successive `start()` calls, collecting the events of the
successful ones (a thrown call changes nothing and emits nothing). -/
def runStarts : Nat → ServerSentEventsTransport →
    ServerSentEventsTransport × List TEvent
  | 0, t => (t, [])
  | n + 1, t =>
      match t.start with
      | .ok (t1, evs) =>
          let p := runStarts n t1
          (p.1, evs ++ p.2)
      | .error _ => runStarts n t

/-! ### The session registry

Modelled from the spec: the repository has no Session Registry under
`src/` (the Durable Object holds a single transport, and the reference
express server keeps a bare list), so §4.3's contract is modelled
directly: a `sessionId → Session` map whose `register` inserts under
`session.sessionId` and fails with `DuplicateSessionError` when the id
already exists. -/

/-- Look a session up by id. -/
def regFind : List (String × ServerSentEventsTransport) → String →
    Option ServerSentEventsTransport
  | [], _ => none
  | (k, v) :: r, sid => if k = sid then some v else regFind r sid

/-- Modelled from the spec: `register(session)` of §4.3. -/
def regRegister (reg : List (String × ServerSentEventsTransport))
    (t : ServerSentEventsTransport) :
    Except String (List (String × ServerSentEventsTransport)) :=
  match regFind reg t.sessionId with
  | some _ => .error "DuplicateSessionError"
  | none => .ok ((t.sessionId, t) :: reg)

/-- How many entries the registry holds under one id. -/
def regCount (reg : List (String × ServerSentEventsTransport))
    (sid : String) : Nat :=
  (reg.filter (fun e => e.1 = sid)).length

/-! ### Concrete scenario inputs -/

/-- A body of 4 MiB + 1 bytes (each `'x'` is one UTF-8 byte). -/
def bigBody : String := String.mk (List.replicate (MAX_MSG_SIZE + 1) 'x')

/-- A POST carrying `bigBody` with a JSON content type and no
`Content-Length` header. -/
def bigReq : PostReq :=
  { contentType := some "application/json", contentLength := none, body := bigBody }

/-- A freshly started transport (the state right after `create` then
`start`, with the endpoint announcement still queued). -/
def startedT : ServerSentEventsTransport :=
  { ServerSentEventsTransport.create "http://host/message" "sid-1" with
    isActive := true,
    stream := { queue := [endpointChunk "http://host/message" "sid-1"],
                closeRequested := false, sstate := .readable, locked := false } }

/-- A JSON POST whose body is well-formed JSON (`[]`) but no JSON-RPC
message. -/
def postBad : PostReq :=
  { contentType := some "application/json", contentLength := none, body := "[]" }

/-- A JSON POST declaring a Content-Length one byte over the cap. -/
def postOver : PostReq :=
  { contentType := some "application/json", contentLength := some "4194305",
    body := "1" }

/-- A POST with a non-JSON content type. -/
def postPlain : PostReq :=
  { contentType := some "text/plain", contentLength := none, body := "[]" }

/-- A minimal JSON POST with no Content-Length header. -/
def postTiny : PostReq :=
  { contentType := some "application/json", contentLength := none, body := "1" }

/-- Whether an event is an `onerror` invocation. -/
def isErrCb : TEvent → Bool
  | .errCb _ => true
  | _ => false

/-! ## Theorems

### Decimal digits -/

theorem isDigit_bounds {c : Char} (h : c.isDigit = true) :
    48 ≤ c.toNat ∧ c.toNat ≤ 57 := by
  simp only [Char.isDigit, Bool.and_eq_true, decide_eq_true_eq] at h
  exact h

theorem digitOf_spec : ∀ d, d < 10 →
    (digitOf d).isDigit = true ∧ (digitOf d).toNat = 48 + d := by decide

theorem natChars_unfold (n : Nat) :
    natChars n = if n < 10 then [digitOf n]
      else natChars (n / 10) ++ [digitOf (n % 10)] := by
  rw [natChars]
  split <;> simp_all

theorem natChars_digits (n : Nat) : ∀ c ∈ natChars n, c.isDigit = true := by
  induction n using Nat.strongRecOn with
  | _ n ih =>
    intro c hc
    rw [natChars_unfold] at hc
    by_cases h : n < 10
    · rw [if_pos h] at hc
      simp only [List.mem_singleton] at hc
      exact hc ▸ (digitOf_spec n h).1
    · rw [if_neg h] at hc
      rcases List.mem_append.mp hc with h1 | h2
      · exact ih (n / 10) (Nat.div_lt_self (by omega) (by omega)) c h1
      · simp only [List.mem_singleton] at h2
        exact h2 ▸ (digitOf_spec _ (Nat.mod_lt _ (by omega))).1

theorem natChars_ne_nil (n : Nat) : natChars n ≠ [] := by
  rw [natChars_unfold]
  by_cases h : n < 10 <;> simp [h]

theorem natChars_lead (n : Nat) (hn : 1 ≤ n) :
    ∃ d t, natChars n = d :: t ∧ d.isDigit = true ∧ d ≠ '0' := by
  induction n using Nat.strongRecOn with
  | _ n ih =>
    rw [natChars_unfold]
    by_cases h : n < 10
    · refine ⟨digitOf n, [], by simp [h], (digitOf_spec n h).1, ?_⟩
      intro he
      have h48 : (digitOf n).toNat = 48 + n := (digitOf_spec n h).2
      rw [he] at h48
      simp at h48
      omega
    · rw [if_neg h]
      obtain ⟨d, t, hdt, hdig, hd0⟩ :=
        ih (n / 10) (Nat.div_lt_self (by omega) (by omega)) (by omega)
      exact ⟨d, t ++ [digitOf (n % 10)], by rw [hdt]; simp, hdig, hd0⟩

theorem digitsVal_snoc (l : List Char) (c : Char) :
    digitsVal (l ++ [c]) = digitsVal l * 10 + (c.toNat - 48) := by
  simp [digitsVal, List.foldl_append]

theorem digitsVal_natChars (n : Nat) : digitsVal (natChars n) = n := by
  induction n using Nat.strongRecOn with
  | _ n ih =>
    rw [natChars_unfold]
    by_cases h : n < 10
    · rw [if_pos h]
      simp [digitsVal, (digitOf_spec n h).2]
    · rw [if_neg h, digitsVal_snoc,
        ih (n / 10) (Nat.div_lt_self (by omega) (by omega)),
        (digitOf_spec _ (Nat.mod_lt _ (by omega))).2]
      omega

/-! ### Number tokens -/

/-- A remainder that cannot continue a numeral: empty, or headed by a
character that is neither a digit nor `.`, `e`, `E`, `-`. -/
def numStop : List Char → Prop
  | [] => True
  | c :: _ => c.isDigit = false ∧ c ≠ '.' ∧ c ≠ 'e' ∧ c ≠ 'E'

theorem grabDigits_stop : ∀ {cs : List Char}, numStop cs → grabDigits cs = ([], cs)
  | [], _ => rfl
  | c :: r, h => by simp [grabDigits, h.1]

theorem grabDigits_run (ds : List Char) (hds : ∀ c ∈ ds, c.isDigit = true)
    {rest : List Char} (hr : grabDigits rest = ([], rest)) :
    grabDigits (ds ++ rest) = (ds, rest) := by
  induction ds with
  | nil => simpa using hr
  | cons c t ih =>
      have hc : c.isDigit = true := hds c (by simp)
      have ht := ih (fun x hx => hds x (by simp [hx]))
      simp [grabDigits, hc, ht]

theorem numStop_not_digit {c : Char} {t : List Char} (h : numStop (c :: t)) :
    c.isDigit = false := h.1

theorem natToken_natChars (n : Nat) {rest : List Char} (hr : numStop rest) :
    natToken (natChars n ++ rest) = some (n, rest) := by
  have hrun := grabDigits_run (natChars n) (natChars_digits n) (grabDigits_stop hr)
  rw [natToken]
  cases hn : natChars n with
  | nil => exact absurd hn (natChars_ne_nil n)
  | cons d ds =>
      rw [hn] at hrun
      simp only [hrun]
      have hguard : ¬(d = '0' ∧ ds ≠ []) := by
        rcases Nat.lt_or_ge n 1 with h1 | h1
        · have h0 : n = 0 := by omega
          subst h0
          rw [natChars_unfold] at hn
          simp only [if_pos (by omega : (0 : Nat) < 10)] at hn
          have hds : ds = [] := (List.cons.inj hn).2.symm
          rintro ⟨-, hne⟩
          exact hne hds
        · obtain ⟨d', t', hdt, _, hd0⟩ := natChars_lead n h1
          rw [hn] at hdt
          have hdd : d = d' := (List.cons.inj hdt).1
          rintro ⟨h0, -⟩
          exact hd0 (hdd ▸ h0)
      rw [if_neg hguard]
      have hval : digitsVal (d :: ds) = n := by
        rw [← hn, digitsVal_natChars]
      cases rest with
      | nil => simp [hval]
      | cons e r2 =>
          obtain ⟨-, h2, h3, h4⟩ := hr
          simp [hval, h2, h3, h4]

theorem isDigit_ne {c : Char} (h : c.isDigit = true) :
    c ≠ '-' ∧ c ≠ '+' := by
  obtain ⟨h1, h2⟩ := isDigit_bounds h
  constructor <;> (intro he; subst he; revert h1 h2; decide)

theorem intToken_intChars (i : Int) {rest : List Char} (hr : numStop rest) :
    intToken (intChars i ++ rest) = some (i, rest) := by
  by_cases hi : i < 0
  · have harg : intChars i ++ rest = '-' :: (natChars i.natAbs ++ rest) := by
      simp [intChars, hi]
    rw [harg, intToken, if_pos rfl, natToken_natChars i.natAbs hr]
    simp only [Option.map_some']
    simp only [Option.some.injEq, Prod.mk.injEq]
    exact ⟨by omega, trivial⟩
  · rcases Nat.eq_zero_or_pos i.natAbs with h0 | hpos
    · have hz : i = 0 := by omega
      subst hz
      have h00 : natChars (Int.natAbs 0) = ['0'] := by
        show natChars 0 = ['0']
        rw [natChars_unfold]
        simp only [if_pos (by omega : (0 : Nat) < 10)]
        decide
      have harg : intChars 0 ++ rest = '0' :: rest := by
        simp only [intChars, if_neg (by omega : ¬(0 : Int) < 0), h00]
        rfl
      rw [harg, intToken, if_neg (by decide : ¬('0' = '-'))]
      have hnt := natToken_natChars 0 hr
      have h000 : natChars 0 = ['0'] := h00
      rw [h000] at hnt
      simp only [List.singleton_append] at hnt
      rw [hnt]
      rfl
    · obtain ⟨d, t, hdt, hdig, -⟩ := natChars_lead i.natAbs hpos
      have harg : intChars i ++ rest = d :: (t ++ rest) := by
        simp [intChars, hi, hdt]
      rw [harg, intToken, if_neg (isDigit_ne hdig).1]
      have hnt := natToken_natChars i.natAbs hr
      rw [hdt] at hnt
      simp only [List.cons_append] at hnt ⊢
      rw [hnt]
      simp only [Option.map_some']
      simp only [Option.some.injEq, Prod.mk.injEq]
      exact ⟨by omega, trivial⟩

/-! ### String literals -/

theorem hexDigVal_hexOf : ∀ d, d < 16 → hexDigVal (hexOf d) = some d := by decide

theorem strBody_esc_step (c : Char) {tail t rest : List Char}
    (ih : strBody tail = some (t, rest)) :
    strBody (escChar c ++ tail) = some (c :: t, rest) := by
  by_cases h1 : c = '"'
  · subst h1
    show strBody ('\\' :: '"' :: tail) = _
    rw [strBody, if_neg (by decide), if_pos rfl, strEsc, if_neg (by decide)]
    simp [strShort, unescChar, ih]
  · by_cases h2 : c = '\\'
    · subst h2
      show strBody ('\\' :: '\\' :: tail) = _
      rw [strBody, if_neg (by decide), if_pos rfl, strEsc, if_neg (by decide)]
      simp [strShort, unescChar, ih]
    · by_cases h3 : c = Char.ofNat 8
      · subst h3
        show strBody ('\\' :: 'b' :: tail) = _
        rw [strBody, if_neg (by decide), if_pos rfl, strEsc, if_neg (by decide)]
        simp [strShort, unescChar, ih]
      · by_cases h4 : c = '\t'
        · subst h4
          show strBody ('\\' :: 't' :: tail) = _
          rw [strBody, if_neg (by decide), if_pos rfl, strEsc, if_neg (by decide)]
          simp [strShort, unescChar, ih]
        · by_cases h5 : c = '\n'
          · subst h5
            show strBody ('\\' :: 'n' :: tail) = _
            rw [strBody, if_neg (by decide), if_pos rfl, strEsc, if_neg (by decide)]
            simp [strShort, unescChar, ih]
          · by_cases h6 : c = Char.ofNat 12
            · subst h6
              show strBody ('\\' :: 'f' :: tail) = _
              rw [strBody, if_neg (by decide), if_pos rfl, strEsc, if_neg (by decide)]
              simp [strShort, unescChar, ih]
            · by_cases h7 : c = '\r'
              · subst h7
                show strBody ('\\' :: 'r' :: tail) = _
                rw [strBody, if_neg (by decide), if_pos rfl, strEsc, if_neg (by decide)]
                simp [strShort, unescChar, ih]
              · by_cases h8 : c.toNat < 32
                · have hesc : escChar c =
                      ['\\', 'u', '0', '0', hexOf (c.toNat / 16), hexOf (c.toNat % 16)] := by
                    simp [escChar, h1, h2, h3, h4, h5, h6, h7, h8]
                  have hh : hexDigVal (hexOf (c.toNat / 16)) = some (c.toNat / 16) :=
                    hexDigVal_hexOf _ (by omega)
                  have hl : hexDigVal (hexOf (c.toNat % 16)) = some (c.toNat % 16) :=
                    hexDigVal_hexOf _ (Nat.mod_lt _ (by omega))
                  have hq : hexQuad '0' '0' (hexOf (c.toNat / 16)) (hexOf (c.toNat % 16))
                      = some c.toNat := by
                    have h00 : hexDigVal '0' = some 0 := by decide
                    simp only [hexQuad, h00, hh, hl, Option.bind_some]
                    show some _ = _
                    congr 1
                    omega
                  rw [hesc]
                  simp only [List.cons_append, List.nil_append]
                  rw [strBody, if_neg (by decide), if_pos rfl, strEsc, if_pos rfl,
                    strHex, hq, strCode]
                  rw [if_pos (by omega :
                    c.toNat < 0xd800 ∨ (0xe000 ≤ c.toNat ∧ c.toNat < 0x110000))]
                  simp [ih, Char.ofNat_toNat]
                · have hesc : escChar c = [c] := by
                    simp [escChar, h1, h2, h3, h4, h5, h6, h7, h8]
                  rw [hesc]
                  simp only [List.singleton_append]
                  rw [strBody, if_neg h1, if_neg h2, if_neg h8]
                  simp [ih]

theorem strBody_quote (l : List Char) (rest : List Char) :
    strBody (l.flatMap escChar ++ '"' :: rest) = some (l, rest) := by
  induction l with
  | nil => simp [strBody]
  | cons c t ih =>
      rw [List.flatMap_cons, List.append_assoc]
      exact strBody_esc_step c ih

/-! ### Heads of rendered values -/

theorem dropWs_skip {c : Char} (h : jsWs c = false) (r : List Char) :
    dropWs (c :: r) = c :: r := by
  simp [dropWs, h]

theorem numStop_bracketR (t : List Char) : numStop (']' :: t) :=
  ⟨by decide, by decide, by decide, by decide⟩

theorem numStop_braceR (t : List Char) : numStop ('}' :: t) :=
  ⟨by decide, by decide, by decide, by decide⟩

theorem numStop_comma (t : List Char) : numStop (',' :: t) :=
  ⟨by decide, by decide, by decide, by decide⟩

theorem digit_facts {c : Char} (h : c.isDigit = true) :
    jsWs c = false ∧ c ≠ 'n' ∧ c ≠ 't' ∧ c ≠ 'f' ∧ c ≠ '"' ∧ c ≠ '[' ∧
      c ≠ '{' ∧ c ≠ ']' := by
  obtain ⟨h1, h2⟩ := isDigit_bounds h
  refine ⟨?_, ?_, ?_, ?_, ?_, ?_, ?_, ?_⟩
  · simp only [jsWs, decide_eq_false_iff_not]
    rintro (rfl | rfl | rfl | rfl) <;> revert h <;> decide
  all_goals (intro he; subst he; revert h; decide)

theorem jRender_head (v : JVal) :
    ∃ c t, jRender v = c :: t ∧ jsWs c = false ∧ c ≠ ']' := by
  cases v with
  | jnull => exact ⟨'n', _, rfl, by decide, by decide⟩
  | jbool b => cases b with
      | true => exact ⟨'t', _, rfl, by decide, by decide⟩
      | false => exact ⟨'f', _, rfl, by decide, by decide⟩
  | jstr s => exact ⟨'"', _, rfl, by decide, by decide⟩
  | jarr vs => exact ⟨'[', _, rfl, by decide, by decide⟩
  | jobj ms => exact ⟨'{', _, rfl, by decide, by decide⟩
  | jnum i =>
      by_cases hi : i < 0
      · refine ⟨'-', natChars i.natAbs, ?_, by decide, by decide⟩
        simp [jRender, intChars, hi]
      · cases hn : natChars i.natAbs with
        | nil => exact absurd hn (natChars_ne_nil _)
        | cons d ds =>
            have hd : d.isDigit = true :=
              natChars_digits _ d (hn ▸ List.mem_cons_self d ds)
            obtain ⟨hws, -, -, -, -, -, -, hbr⟩ := digit_facts hd
            refine ⟨d, ds, ?_, hws, hbr⟩
            simp [jRender, intChars, hi, hn]

theorem jRender_len_pos (v : JVal) : 1 ≤ (jRender v).length := by
  obtain ⟨c, t, hct, -, -⟩ := jRender_head v
  simp [hct]

theorem dropWs_render (v : JVal) (x : List Char) :
    dropWs (jRender v ++ x) = jRender v ++ x := by
  obtain ⟨c, t, hct, hws, -⟩ := jRender_head v
  rw [hct, List.cons_append, dropWs_skip hws]

/-! ### The codec round-trip -/

mutual
theorem jScan_render : ∀ (v : JVal) (f : Nat) (rest : List Char),
    (jRender v).length < f → numStop rest →
    jScan f (jRender v ++ rest) = some (v, rest)
  | .jnull, f, rest, hf, _ => by
      cases f with
      | zero => simp [jRender] at hf
      | succ g =>
          show jScan (g + 1) ('n' :: 'u' :: 'l' :: 'l' :: rest) = _
          rw [jScan, dropWs_skip (by decide)]
          simp [litNull]
  | .jbool true, f, rest, hf, _ => by
      cases f with
      | zero => simp [jRender] at hf
      | succ g =>
          show jScan (g + 1) ('t' :: 'r' :: 'u' :: 'e' :: rest) = _
          rw [jScan, dropWs_skip (by decide)]
          simp [litTrue]
  | .jbool false, f, rest, hf, _ => by
      cases f with
      | zero => simp [jRender] at hf
      | succ g =>
          show jScan (g + 1) ('f' :: 'a' :: 'l' :: 's' :: 'e' :: rest) = _
          rw [jScan, dropWs_skip (by decide)]
          simp [litFalse]
  | .jnum i, f, rest, hf, hr => by
      cases f with
      | zero => exact absurd hf (by omega)
      | succ g =>
          by_cases hi : i < 0
          · have harg : jRender (.jnum i) ++ rest = '-' :: (natChars i.natAbs ++ rest) := by
              simp [jRender, intChars, hi]
            have hback : '-' :: (natChars i.natAbs ++ rest) = intChars i ++ rest := by
              simp [intChars, hi]
            rw [harg, jScan, dropWs_skip (by decide)]
            simp only [if_neg (show ¬('-' : Char) = 'n' by decide),
              if_neg (show ¬('-' : Char) = 't' by decide),
              if_neg (show ¬('-' : Char) = 'f' by decide),
              if_neg (show ¬('-' : Char) = '"' by decide),
              if_neg (show ¬('-' : Char) = '[' by decide),
              if_neg (show ¬('-' : Char) = '{' by decide),
              if_pos (show ('-' : Char) = '-' ∨ ('-' : Char).isDigit = true from Or.inl rfl)]
            rw [hback, intToken_intChars i hr]
            rfl
          · cases hn : natChars i.natAbs with
            | nil => exact absurd hn (natChars_ne_nil _)
            | cons d ds =>
                have hd : d.isDigit = true :=
                  natChars_digits _ d (hn ▸ List.mem_cons_self d ds)
                obtain ⟨hws, hn', ht', hf', hq', hk', hb', -⟩ := digit_facts hd
                have harg : jRender (.jnum i) ++ rest = d :: (ds ++ rest) := by
                  simp [jRender, intChars, hi, hn]
                have hback : d :: (ds ++ rest) = intChars i ++ rest := by
                  simp [intChars, hi, hn]
                rw [harg, jScan, dropWs_skip hws]
                simp only [if_neg hn', if_neg ht', if_neg hf', if_neg hq',
                  if_neg hk', if_neg hb', if_pos (Or.inr hd)]
                rw [hback, intToken_intChars i hr]
                rfl
  | .jstr s, f, rest, hf, _ => by
      cases f with
      | zero => exact absurd hf (by omega)
      | succ g =>
          have harg : jRender (.jstr s) ++ rest
              = '"' :: (s.data.flatMap escChar ++ '"' :: rest) := by
            simp [jRender, quoteChars]
          rw [harg, jScan, dropWs_skip (by decide)]
          simp only [if_neg (show ¬('"' : Char) = 'n' by decide),
            if_neg (show ¬('"' : Char) = 't' by decide),
            if_neg (show ¬('"' : Char) = 'f' by decide),
            if_pos (rfl : ('"' : Char) = '"')]
          rw [strBody_quote]
          rfl
  | .jarr [], f, rest, hf, _ => by
      cases f with
      | zero => simp [jRender, jRenderItems] at hf
      | succ g =>
          have harg : jRender (.jarr []) ++ rest = '[' :: ']' :: rest := by
            simp [jRender, jRenderItems]
          rw [harg, jScan, dropWs_skip (by decide)]
          simp only [if_neg (show ¬('[' : Char) = 'n' by decide),
            if_neg (show ¬('[' : Char) = 't' by decide),
            if_neg (show ¬('[' : Char) = 'f' by decide),
            if_neg (show ¬('[' : Char) = '"' by decide),
            if_pos (rfl : ('[' : Char) = '[')]
          rw [dropWs_skip (by decide)]
          simp
  | .jarr (v :: vs), f, rest, hf, _ => by
      cases f with
      | zero => exact absurd hf (by omega)
      | succ g =>
          have harg : jRender (.jarr (v :: vs)) ++ rest
              = '[' :: (jRenderItems (v :: vs) ++ ']' :: rest) := by
            simp [jRender]
          obtain ⟨c0, t0, h0, hws0, hbr0⟩ := jRender_head v
          have hcons : jRenderItems (v :: vs) ++ ']' :: rest
              = c0 :: (t0 ++ (jRenderItemsTail vs ++ ']' :: rest)) := by
            simp [jRenderItems, h0]
          have hlen : (jRenderItems (v :: vs)).length + 1 < g := by
            have hexp : (jRender (.jarr (v :: vs))).length
                = (jRenderItems (v :: vs)).length + 2 := by
              simp [jRender]
            omega
          rw [harg, jScan, dropWs_skip (by decide)]
          simp only [if_neg (show ¬('[' : Char) = 'n' by decide),
            if_neg (show ¬('[' : Char) = 't' by decide),
            if_neg (show ¬('[' : Char) = 'f' by decide),
            if_neg (show ¬('[' : Char) = '"' by decide),
            if_pos (rfl : ('[' : Char) = '[')]
          rw [hcons, dropWs_skip hws0]
          simp only [if_neg hbr0]
          rw [← hcons, jScanItems_render v vs g rest hlen]
          rfl
  | .jobj [], f, rest, hf, _ => by
      cases f with
      | zero => simp [jRender, jRenderFields] at hf
      | succ g =>
          have harg : jRender (.jobj []) ++ rest = '{' :: '}' :: rest := by
            simp [jRender, jRenderFields]
          rw [harg, jScan, dropWs_skip (by decide)]
          simp only [if_neg (show ¬('{' : Char) = 'n' by decide),
            if_neg (show ¬('{' : Char) = 't' by decide),
            if_neg (show ¬('{' : Char) = 'f' by decide),
            if_neg (show ¬('{' : Char) = '"' by decide),
            if_neg (show ¬('{' : Char) = '[' by decide),
            if_pos (rfl : ('{' : Char) = '{')]
          rw [dropWs_skip (by decide)]
          simp
  | .jobj ((k, v) :: ms), f, rest, hf, _ => by
      cases f with
      | zero => exact absurd hf (by omega)
      | succ g =>
          have harg : jRender (.jobj ((k, v) :: ms)) ++ rest
              = '{' :: (jRenderFields ((k, v) :: ms) ++ '}' :: rest) := by
            simp [jRender]
          have hcons : jRenderFields ((k, v) :: ms) ++ '}' :: rest
              = '"' :: ((k.data.flatMap escChar ++ ['"'])
                  ++ (':' :: (jRender v ++ jRenderFieldsTail ms) ++ '}' :: rest)) := by
            simp [jRenderFields, quoteChars]
          have hlen : (jRenderFields ((k, v) :: ms)).length + 1 < g := by
            have hexp : (jRender (.jobj ((k, v) :: ms))).length
                = (jRenderFields ((k, v) :: ms)).length + 2 := by
              simp [jRender]
            omega
          rw [harg, jScan, dropWs_skip (by decide)]
          simp only [if_neg (show ¬('{' : Char) = 'n' by decide),
            if_neg (show ¬('{' : Char) = 't' by decide),
            if_neg (show ¬('{' : Char) = 'f' by decide),
            if_neg (show ¬('{' : Char) = '"' by decide),
            if_neg (show ¬('{' : Char) = '[' by decide),
            if_pos (rfl : ('{' : Char) = '{')]
          rw [hcons, dropWs_skip (by decide)]
          simp only [if_neg (show ¬('"' : Char) = '}' by decide)]
          rw [← hcons, jScanFields_render k v ms g rest hlen]
          rfl
termination_by v _ _ _ _ => sizeOf v

theorem jScanItems_render : ∀ (v : JVal) (vs : List JVal) (f : Nat) (rest : List Char),
    (jRenderItems (v :: vs)).length + 1 < f →
    jScanItems f (jRenderItems (v :: vs) ++ ']' :: rest) = some (v :: vs, rest)
  | v, [], f, rest, hf => by
      cases f with
      | zero => omega
      | succ g =>
          have hlenv : (jRender v).length < g := by
            simp only [jRenderItems, jRenderItemsTail, List.append_nil,
              List.length_append, List.length_nil] at hf ⊢
            omega
          have harg : jRenderItems (v :: []) ++ ']' :: rest
              = jRender v ++ ']' :: rest := by
            simp [jRenderItems, jRenderItemsTail]
          have hv := jScan_render v g (']' :: rest) hlenv (numStop_bracketR rest)
          rw [harg, jScanItems, hv]
          simp only [Option.bind_eq_bind, Option.some_bind]
          rw [dropWs_skip (by decide)]
          simp
  | v, w :: ws, f, rest, hf => by
      cases f with
      | zero => omega
      | succ g =>
          have hexp1 : (jRenderItems (v :: w :: ws)).length
              = (jRender v).length + 1 + (jRender w).length
                + (jRenderItemsTail ws).length := by
            simp only [jRenderItems, jRenderItemsTail, List.length_append,
              List.length_cons]
            omega
          have hexp2 : (jRenderItems (w :: ws)).length
              = (jRender w).length + (jRenderItemsTail ws).length := by
            simp only [jRenderItems, List.length_append]
          have hvpos := jRender_len_pos v
          have hlenv : (jRender v).length < g := by omega
          have hlenw : (jRenderItems (w :: ws)).length + 1 < g := by omega
          have harg : jRenderItems (v :: w :: ws) ++ ']' :: rest
              = jRender v ++ (',' :: (jRenderItems (w :: ws) ++ ']' :: rest)) := by
            simp [jRenderItems, jRenderItemsTail]
          have hv := jScan_render v g (',' :: (jRenderItems (w :: ws) ++ ']' :: rest))
            hlenv (numStop_comma _)
          rw [harg, jScanItems, hv]
          simp only [Option.bind_eq_bind, Option.some_bind]
          rw [dropWs_skip (by decide)]
          simp only [if_pos (rfl : (',' : Char) = ',')]
          rw [jScanItems_render w ws g rest hlenw]
          simp
termination_by v vs _ _ _ => sizeOf v + sizeOf vs

theorem jScanFields_render : ∀ (k : String) (v : JVal) (ms : List (String × JVal))
    (f : Nat) (rest : List Char),
    (jRenderFields ((k, v) :: ms)).length + 1 < f →
    jScanFields f (jRenderFields ((k, v) :: ms) ++ '}' :: rest)
      = some ((k, v) :: ms, rest)
  | k, v, [], f, rest, hf => by
      cases f with
      | zero => omega
      | succ g =>
          have hqlen : (quoteChars k.data).length
              = (k.data.flatMap escChar).length + 2 := by
            simp [quoteChars]
          have hlenv : (jRender v).length < g := by
            simp only [jRenderFields, jRenderFieldsTail, List.append_nil,
              List.length_append, List.length_cons] at hf
            omega
          have harg : jRenderFields ((k, v) :: []) ++ '}' :: rest
              = '"' :: (k.data.flatMap escChar
                  ++ '"' :: (':' :: (jRender v ++ '}' :: rest))) := by
            simp [jRenderFields, jRenderFieldsTail, quoteChars]
          have hv := jScan_render v g ('}' :: rest) hlenv (numStop_braceR rest)
          rw [harg, jScanFields, dropWs_skip (by decide)]
          simp only [if_pos (rfl : ('"' : Char) = '"')]
          rw [strBody_quote]
          simp only [Option.bind_eq_bind, Option.some_bind]
          rw [dropWs_skip (by decide)]
          simp only [if_pos (rfl : (':' : Char) = ':')]
          rw [hv]
          simp only [Option.bind_eq_bind, Option.some_bind]
          rw [dropWs_skip (by decide)]
          simp
  | k, v, (k2, v2) :: ms2, f, rest, hf => by
      cases f with
      | zero => omega
      | succ g =>
          have hlens : (jRenderFields ((k, v) :: (k2, v2) :: ms2)).length
              = (quoteChars k.data).length + 1 + (jRender v).length + 1
                + (jRenderFields ((k2, v2) :: ms2)).length := by
            simp only [jRenderFields, jRenderFieldsTail, List.length_append,
              List.length_cons]
            omega
          have hqpos : 2 ≤ (quoteChars k.data).length := by
            simp [quoteChars]
          have hlenv : (jRender v).length < g := by omega
          have hlenm : (jRenderFields ((k2, v2) :: ms2)).length + 1 < g := by
            have := jRender_len_pos v
            omega
          have harg : jRenderFields ((k, v) :: (k2, v2) :: ms2) ++ '}' :: rest
              = '"' :: (k.data.flatMap escChar
                  ++ '"' :: (':' :: (jRender v
                    ++ ',' :: (jRenderFields ((k2, v2) :: ms2) ++ '}' :: rest)))) := by
            simp [jRenderFields, jRenderFieldsTail, quoteChars]
          have hv := jScan_render v g
            (',' :: (jRenderFields ((k2, v2) :: ms2) ++ '}' :: rest))
            hlenv (numStop_comma _)
          rw [harg, jScanFields, dropWs_skip (by decide)]
          simp only [if_pos (rfl : ('"' : Char) = '"')]
          rw [strBody_quote]
          simp only [Option.bind_eq_bind, Option.some_bind]
          rw [dropWs_skip (by decide)]
          simp only [if_pos (rfl : (':' : Char) = ':')]
          rw [hv]
          simp only [Option.bind_eq_bind, Option.some_bind]
          rw [dropWs_skip (by decide)]
          simp only [if_pos (rfl : (',' : Char) = ',')]
          rw [jScanFields_render k2 v2 ms2 g rest hlenm]
          simp
termination_by k v ms _ _ _ => sizeOf v + sizeOf ms
end

/-- Parsing a stringified value yields it back, whole-string level. -/
theorem jsonParse_stringify (v : JVal) : jsonParse (jsonStringify v) = some v := by
  have hv := jScan_render v (2 * (jRender v).length + 2) [] (by omega) trivial
  rw [List.append_nil] at hv
  rw [jsonParse]
  have hdata : (jsonStringify v).data = jRender v := rfl
  rw [hdata, hv]
  simp [dropWs]

/-! ### Schema round-trip -/

theorem schemaCheck_msgJson (m : RpcMessage) : schemaCheck (msgJson m) = some m := by
  cases m with
  | request i mth p =>
      cases p with
      | none => cases i <;> simp [msgJson, schemaCheck, getF, paramsField, jvalParams,
          jvalId, rpcIdJson]
      | some pl => cases i <;> simp [msgJson, schemaCheck, getF, paramsField, jvalParams,
          jvalId, rpcIdJson]
  | notification mth p =>
      cases p with
      | none => simp [msgJson, schemaCheck, getF, paramsField, jvalParams]
      | some pl => simp [msgJson, schemaCheck, getF, paramsField, jvalParams]
  | response i res =>
      cases i <;> simp [msgJson, schemaCheck, getF, jvalId, rpcIdJson]
  | errorResponse i c emsg d =>
      cases d with
      | none => cases i <;> simp [msgJson, schemaCheck, getF, dataField, jvalId, rpcIdJson]
      | some dv => cases i <;> simp [msgJson, schemaCheck, getF, dataField, jvalId, rpcIdJson]

/-! ## Claim theorems -/

/-- C8: for every valid JSON-RPC message `m`, decoding the encoded form yields
`m` back — `decodeRpc (encodeRpc m) = some m`, where `encodeRpc` is the
`JSON.stringify` serialization `send` uses and `decodeRpc` is the
schema-validating parse `handlePostMessage` / `handleMessage` apply. -/
theorem C8_decode_encode_roundtrip (m : RpcMessage) :
    decodeRpc (encodeRpc m) = some m := by
  rw [decodeRpc, encodeRpc, jsonParse_stringify, Option.some_bind]
  exact schemaCheck_msgJson m

/-- C1 (code bug, evaluated at the failing input): a transport that has
`start`ed — its endpoint announcement still queued, its stream unlocked —
runs the `onclose?.()` call site twice on a single `close()`:
`controller.close()` only requests closing (the queue is non-empty), so the
subsequent `eventStream.cancel()` still finds the stream readable and fires
the underlying source's cancel hook (first `onclose`), after which `close()`
invokes `onclose` itself a second time. -/
theorem C1_close_fires_onclose_twice :
    ∃ t1 e1 t2,
      (ServerSentEventsTransport.create "http://host/message" "sid-1").start
          = .ok (t1, e1) ∧
      t1.close = .ok (t2, [TEvent.closeCb, TEvent.closeCb]) ∧
      t2.isActive = false := by
  refine ⟨_, _, _, rfl, rfl, rfl⟩

theorem start_of_active {t : ServerSentEventsTransport} (h : t.isActive = true) :
    t.start = .error alreadyActiveMsg := by
  rw [ServerSentEventsTransport.start, if_pos h]

theorem runStarts_active {t : ServerSentEventsTransport} (h : t.isActive = true) :
    ∀ n, runStarts n t = (t, []) := by
  intro n
  induction n with
  | zero => rfl
  | succ m ih =>
      rw [runStarts, start_of_active h]
      exact ih

theorem runStarts_succ_ok {t t1 : ServerSentEventsTransport} {evs : List TEvent}
    (h : t.start = .ok (t1, evs)) (n : Nat) :
    runStarts (n + 1) t = ((runStarts n t1).1, evs ++ (runStarts n t1).2) := by
  rw [runStarts, h]

theorem create_start (url sid : String) :
    (ServerSentEventsTransport.create url sid).start
      = .ok ({ ServerSentEventsTransport.create url sid with
               isActive := true,
               stream := { queue := [endpointChunk url sid],
                           closeRequested := false, sstate := .readable,
                           locked := false } },
             [TEvent.enq (endpointChunk url sid)]) := rfl

/-- C2: `start()` fails with the already-active error when the transport is
active (hence on any second call after a successful first), fails with the
stream-unavailable error when the controller was never initialized, and across
any sequence of `n ≥ 1` `start()` calls on a fresh transport the outbound
stream receives exactly one `endpoint` event, framed
`event: endpoint\ndata: <encoded postUrl>?sessionId=<id>\n\n`. -/
theorem C2_start_spec (url sid : String) (n : Nat) (hn : 1 ≤ n) :
    (∀ t : ServerSentEventsTransport, t.isActive = true →
        t.start = .error alreadyActiveMsg) ∧
    (∀ t : ServerSentEventsTransport, t.isActive = false →
        t.streamController = false → t.start = .error streamUnavailableMsg) ∧
    (runStarts n (ServerSentEventsTransport.create url sid)).2
        = [TEvent.enq (endpointChunk url sid)] ∧
    (runStarts n (ServerSentEventsTransport.create url sid)).1.stream.queue
        = [endpointChunk url sid] := by
  refine ⟨fun t h => start_of_active h, ?_, ?_⟩
  · intro t h1 h2
    rw [ServerSentEventsTransport.start, if_neg (by simp [h1]), if_pos (by simp [h2])]
  · cases n with
    | zero => omega
    | succ m =>
        rw [runStarts_succ_ok (create_start url sid) m, runStarts_active rfl m]
        simp

/-- Witness for C2 at `n = 2` on a concrete transport. -/
theorem C2_start_spec_witness :
    1 ≤ 2 ∧
    ((runStarts 2 (ServerSentEventsTransport.create "http://host/message" "sid-1")).2
        = [TEvent.enq (endpointChunk "http://host/message" "sid-1")]) :=
  ⟨by omega, (C2_start_spec "http://host/message" "sid-1" 2 (by omega)).2.2.1⟩

/-- C3: `send(m)` outside the active state (before `start` or after close /
cancellation, where `#isActive` is false) throws the not-connected error and
enqueues nothing; while active (with the stream readable, as it always is
when the transport is active) it enqueues exactly one framed SSE event
`event: message\ndata: <json>\n\n` on the outbound controller. -/
theorem C3_send_spec (t : ServerSentEventsTransport) (m : RpcMessage) :
    ((t.isActive = false ∨ t.streamController = false) →
        t.send m = .error notConnectedMsg) ∧
    (t.isActive = true → t.streamController = true →
        t.stream.sstate = .readable → t.stream.closeRequested = false →
        t.send m = .ok ({ t with stream := { t.stream with
            queue := t.stream.queue ++ [messageChunk m] } },
          [TEvent.enq (messageChunk m)])) := by
  constructor
  · intro h
    rw [ServerSentEventsTransport.send, if_pos]
    rcases h with h | h <;> simp [h]
  · intro h1 h2 h3 h4
    rw [ServerSentEventsTransport.send, if_neg (by simp [h1, h2])]
    rw [ctrlEnqueue, if_neg (by simp [h3, h4])]

/-- Witness for C3: a fresh transport rejects `send`; a started transport
enqueues the framed message event. -/
theorem C3_send_spec_witness :
    (ServerSentEventsTransport.create "http://host/message" "sid-1").send
        (.notification "ping" none) = .error notConnectedMsg ∧
    startedT.send (.notification "ping" none)
        = .ok ({ startedT with stream := { startedT.stream with
            queue := startedT.stream.queue
              ++ [messageChunk (.notification "ping" none)] } },
          [TEvent.enq (messageChunk (.notification "ping" none))]) :=
  ⟨(C3_send_spec _ _).1 (Or.inl rfl),
   (C3_send_spec _ _).2 rfl rfl rfl rfl⟩

/-- C4: a POST handled while active whose body fails the JSON parse or fails
JSON-RPC schema validation gets a 400 response carrying the failure reason,
`onerror` is invoked, and the session is not closed: the state is unchanged
(still active) and `onclose` is not invoked. -/
theorem C4_invalid_body_400 (t : ServerSentEventsTransport) (r : PostReq)
    (hact : t.isActive = true) (hctrl : t.streamController = true)
    (hct : ctHasJson r = true) (hsz : declaredOver r = false)
    (hbad : jsonParse r.body = none ∨
      ∃ j, jsonParse r.body = some j ∧ schemaCheck j = none) :
    (t.handlePostMessage r).2.1.status = 400 ∧
    (∃ msg, (t.handlePostMessage r).2.1.body = "Error processing message: " ++ msg ∧
      TEvent.errCb msg ∈ (t.handlePostMessage r).2.2) ∧
    TEvent.closeCb ∉ (t.handlePostMessage r).2.2 ∧
    (t.handlePostMessage r).1 = t ∧ (t.handlePostMessage r).1.isActive = true := by
  have hpost : t.handlePostMessage r
      = (if ¬t.isActive = true ∨ ¬t.streamController = true then
          (t, { status := 503, body := "SSE connection not established" }, [])
        else if ¬ctHasJson r = true then
          (t, { status := 415,
                body := "Invalid content type: " ++ (r.contentType.getD "") }, [])
        else if declaredOver r = true then
          (t, { status := 413, body := "Message exceeds size limit" }, [])
        else
          match jsonParse r.body with
          | none =>
              (t, { status := 400,
                    body := "Error processing message: " ++ jsonSyntaxMsg },
               [.bodyParse, .errCb jsonSyntaxMsg])
          | some j =>
              match ServerSentEventsTransport.handleMessage j with
              | (.ok _, evs) =>
                  (t, { status := 202, body := "Message processed" },
                    .bodyParse :: evs)
              | (.error msg, evs) =>
                  (t, { status := 400,
                        body := "Error processing message: " ++ msg },
                   .bodyParse :: (evs ++ [.errCb msg]))) := rfl
  rw [hpost, if_neg (by simp [hact, hctrl]), if_neg (by simp [hct]),
    if_neg (by simp [hsz])]
  rcases hbad with hnone | ⟨j, hj, hschema⟩
  · rw [hnone]
    refine ⟨rfl, ⟨jsonSyntaxMsg, rfl, by simp⟩, by simp, rfl, hact⟩
  · have hm : ServerSentEventsTransport.handleMessage j
        = (.error zodValidationMsg, [.errCb zodValidationMsg]) := by
      simp only [ServerSentEventsTransport.handleMessage, hschema]
    rw [hj]
    simp only [hm]
    refine ⟨by trivial, ⟨zodValidationMsg, by trivial, by simp⟩, by simp, by trivial, hact⟩

/-- Witness for C4: a started transport answering a well-formed but
non-JSON-RPC body (`[]`). -/
theorem C4_invalid_body_400_witness :
    ctHasJson postBad = true ∧ jsonParse postBad.body = some (.jarr []) ∧
    (startedT.handlePostMessage postBad).2.1.status = 400 ∧
    TEvent.closeCb ∉ (startedT.handlePostMessage postBad).2.2 :=
  ⟨rfl, rfl,
   (C4_invalid_body_400 startedT postBad rfl rfl rfl rfl
      (Or.inr ⟨.jarr [], rfl, rfl⟩)).1,
   (C4_invalid_body_400 startedT postBad rfl rfl rfl rfl
      (Or.inr ⟨.jarr [], rfl, rfl⟩)).2.2.1⟩

/-- C5 as amended: for every POST handled while active whose Content-Type
contains `application/json` and whose declared `Content-Length` header parses
to a value over 4 MiB, `handlePostMessage` answers 413 without reaching the
body parse and without invoking the message handler. -/
theorem C5_declared_oversize_413 (t : ServerSentEventsTransport) (r : PostReq)
    (hact : t.isActive = true) (hctrl : t.streamController = true)
    (hct : ctHasJson r = true) (hsz : declaredOver r = true) :
    (t.handlePostMessage r).2.1.status = 413 ∧
    (t.handlePostMessage r).2.2 = [] ∧
    TEvent.bodyParse ∉ (t.handlePostMessage r).2.2 ∧
    (∀ m, TEvent.msgCb m ∉ (t.handlePostMessage r).2.2) := by
  have hpost : t.handlePostMessage r
      = (t, { status := 413, body := "Message exceeds size limit" }, []) := by
    rw [ServerSentEventsTransport.handlePostMessage,
      if_neg (by simp [hact, hctrl]), if_neg (by simp [hct]), if_pos hsz]
  rw [hpost]
  exact ⟨rfl, rfl, by simp, by simp⟩

/-- Witness for the amended C5: a declared Content-Length of 4 MiB + 1. -/
theorem C5_declared_oversize_413_witness :
    declaredOver postOver = true ∧
    (startedT.handlePostMessage postOver).2.1.status = 413 :=
  ⟨rfl, (C5_declared_oversize_413 startedT postOver rfl rfl rfl rfl).1⟩

theorem byteLen_bigBody : byteLen bigBody = MAX_MSG_SIZE + 1 := by
  rw [bigBody, byteLen]
  have hdata : (String.mk (List.replicate (MAX_MSG_SIZE + 1) 'x')).data
      = List.replicate (MAX_MSG_SIZE + 1) 'x' := rfl
  rw [hdata, List.map_replicate, List.sum_replicate]
  have hx : Char.utf8Size 'x' = 1 := rfl
  rw [hx, smul_eq_mul, mul_one]

theorem jScan_badhead (f : Nat) (r : List Char) : jScan (f + 1) ('x' :: r) = none := by
  rw [jScan, dropWs_skip (by decide)]
  simp only [if_neg (show ¬('x' : Char) = 'n' by decide),
    if_neg (show ¬('x' : Char) = 't' by decide),
    if_neg (show ¬('x' : Char) = 'f' by decide),
    if_neg (show ¬('x' : Char) = '"' by decide),
    if_neg (show ¬('x' : Char) = '[' by decide),
    if_neg (show ¬('x' : Char) = '{' by decide),
    if_neg (show ¬(('x' : Char) = '-' ∨ ('x' : Char).isDigit = true) by decide)]

theorem jsonParse_bigBody : jsonParse bigBody = none := by
  rw [jsonParse]
  have hdata : bigBody.data = 'x' :: List.replicate MAX_MSG_SIZE 'x' := by
    show List.replicate (MAX_MSG_SIZE + 1) 'x' = _
    rw [List.replicate_succ]
  rw [hdata]
  have hlen : ('x' :: List.replicate MAX_MSG_SIZE 'x').length = MAX_MSG_SIZE + 1 := by
    rw [List.length_cons, List.length_replicate]
  rw [hlen]
  have hfuel : 2 * (MAX_MSG_SIZE + 1) + 2 = (2 * (MAX_MSG_SIZE + 1) + 1) + 1 := rfl
  rw [hfuel, jScan_badhead]

/-- C5 is false as stated: this POST's body is over 4 MiB, yet — carrying no
`Content-Length` header — it is not answered 413; the handler reaches the
body parse (the `bodyParse` event fires) and answers 400. -/
theorem C5_counterexample_body_over_cap :
    MAX_MSG_SIZE < byteLen bigReq.body ∧
    (startedT.handlePostMessage bigReq).2.1.status = 400 ∧
    ¬(startedT.handlePostMessage bigReq).2.1.status = 413 ∧
    TEvent.bodyParse ∈ (startedT.handlePostMessage bigReq).2.2 := by
  have hbody : bigReq.body = bigBody := rfl
  have hlen : MAX_MSG_SIZE < byteLen bigReq.body := by
    rw [hbody, byteLen_bigBody]
    omega
  have hpost : startedT.handlePostMessage bigReq
      = (startedT,
         { status := 400, body := "Error processing message: " ++ jsonSyntaxMsg },
         [TEvent.bodyParse, TEvent.errCb jsonSyntaxMsg]) := by
    rw [ServerSentEventsTransport.handlePostMessage,
      if_neg (by decide), if_neg (by decide), if_neg (by decide)]
    rw [hbody, jsonParse_bigBody]
  rw [hpost]
  exact ⟨hlen, rfl, by decide, by simp⟩

/-- C6: a POST handled while active whose Content-Type does not contain a
JSON media type is answered 415 with no callback invoked (in particular
`onmessage` never fires), and a POST handled while the transport is not
active is answered 503, likewise without invoking `onmessage`. -/
theorem C6_content_type_and_state (t : ServerSentEventsTransport) (r : PostReq) :
    (t.isActive = true → t.streamController = true → ctHasJson r = false →
      (t.handlePostMessage r).2.1.status = 415 ∧
      (t.handlePostMessage r).2.2 = [] ∧
      (∀ m, TEvent.msgCb m ∉ (t.handlePostMessage r).2.2)) ∧
    (t.isActive = false →
      (t.handlePostMessage r).2.1.status = 503 ∧
      (t.handlePostMessage r).2.2 = [] ∧
      (∀ m, TEvent.msgCb m ∉ (t.handlePostMessage r).2.2)) := by
  constructor
  · intro h1 h2 h3
    have hpost : t.handlePostMessage r
        = (t, { status := 415,
                body := "Invalid content type: " ++ (r.contentType.getD "") }, []) := by
      rw [ServerSentEventsTransport.handlePostMessage,
        if_neg (by simp [h1, h2]), if_pos (by simp [h3])]
    rw [hpost]
    exact ⟨rfl, rfl, by simp⟩
  · intro h1
    have hpost : t.handlePostMessage r
        = (t, { status := 503, body := "SSE connection not established" }, []) := by
      rw [ServerSentEventsTransport.handlePostMessage, if_pos (by simp [h1])]
    rw [hpost]
    exact ⟨rfl, rfl, by simp⟩

/-- Witness for C6: `text/plain` on a started transport; any request on a
fresh (not yet started) transport. -/
theorem C6_content_type_and_state_witness :
    ctHasJson postPlain = false ∧
    (startedT.handlePostMessage postPlain).2.1.status = 415 ∧
    ((ServerSentEventsTransport.create "http://host/message" "sid-1").handlePostMessage
        postPlain).2.1.status = 503 :=
  ⟨rfl,
   ((C6_content_type_and_state startedT postPlain).1 rfl rfl rfl).1,
   ((C6_content_type_and_state
      (ServerSentEventsTransport.create "http://host/message" "sid-1") postPlain).2 rfl).1⟩

theorem regFind_none_count {reg : List (String × ServerSentEventsTransport)}
    {sid : String} (h : regFind reg sid = none) : regCount reg sid = 0 := by
  induction reg with
  | nil => rfl
  | cons e rg ih =>
      obtain ⟨k, v⟩ := e
      rw [regFind] at h
      by_cases hk : k = sid
      · rw [if_pos hk] at h
        exact absurd h (by simp)
      · rw [if_neg hk] at h
        rw [regCount, List.filter_cons]
        simp only [decide_eq_true_eq]
        rw [if_neg (by simpa using hk)]
        exact ih h

/-- C7: registering a second session under an id already present fails with
`DuplicateSessionError`, and after the failed second register the registry
still holds exactly one entry under that id.  (Spec-modelled: the repository
has no registry implementation under `src/`; `regRegister` follows §4.3.) -/
theorem C7_registry_duplicate (reg reg1 : List (String × ServerSentEventsTransport))
    (t1 t2 : ServerSentEventsTransport) (hsid : t2.sessionId = t1.sessionId)
    (h1 : regRegister reg t1 = .ok reg1) :
    regRegister reg1 t2 = .error "DuplicateSessionError" ∧
    regCount reg1 t1.sessionId = 1 := by
  rw [regRegister] at h1
  cases hfind : regFind reg t1.sessionId with
  | some s =>
      rw [hfind] at h1
      exact absurd h1 (by simp)
  | none =>
      rw [hfind] at h1
      have hreg1 : reg1 = (t1.sessionId, t1) :: reg := by
        have := h1
        simp only [Except.ok.injEq] at this
        exact this.symm
      subst hreg1
      constructor
      · rw [regRegister, hsid, regFind, if_pos rfl]
      · rw [regCount, List.filter_cons]
        have h0 : regCount reg t1.sessionId = 0 := regFind_none_count hfind
        rw [regCount] at h0
        simp [h0]

/-- Witness for C7: two transports sharing the session id `"s"` against the
empty registry. -/
theorem C7_registry_duplicate_witness :
    regRegister [("s", ServerSentEventsTransport.create "u" "s")]
        (ServerSentEventsTransport.create "v" "s") = .error "DuplicateSessionError" ∧
    regCount [("s", ServerSentEventsTransport.create "u" "s")] "s" = 1 :=
  C7_registry_duplicate [] [("s", ServerSentEventsTransport.create "u" "s")]
    (ServerSentEventsTransport.create "u" "s")
    (ServerSentEventsTransport.create "v" "s") rfl rfl

/-- C9 (implicit): a POST accepted while active whose body is well-formed
JSON but fails schema validation runs the `onerror?.(e)` call site exactly
twice before the 400 answer — once inside `handleMessage` before it rethrows,
once more in `handlePostMessage`'s catch block — as the full event trace
shows. -/
theorem C9_onerror_twice (t : ServerSentEventsTransport) (r : PostReq) (j : JVal)
    (hact : t.isActive = true) (hctrl : t.streamController = true)
    (hct : ctHasJson r = true) (hsz : declaredOver r = false)
    (hparse : jsonParse r.body = some j) (hschema : schemaCheck j = none) :
    (t.handlePostMessage r).2.2
        = [TEvent.bodyParse, TEvent.errCb zodValidationMsg,
           TEvent.errCb zodValidationMsg] ∧
    ((t.handlePostMessage r).2.2.filter isErrCb).length = 2 ∧
    (t.handlePostMessage r).2.1.status = 400 := by
  have hm : ServerSentEventsTransport.handleMessage j
      = (.error zodValidationMsg, [.errCb zodValidationMsg]) := by
    simp only [ServerSentEventsTransport.handleMessage, hschema]
  have hpost : t.handlePostMessage r
      = (t, { status := 400, body := "Error processing message: " ++ zodValidationMsg },
         [TEvent.bodyParse, TEvent.errCb zodValidationMsg,
          TEvent.errCb zodValidationMsg]) := by
    rw [ServerSentEventsTransport.handlePostMessage,
      if_neg (by simp [hact, hctrl]), if_neg (by simp [hct]),
      if_neg (by simp [hsz]), hparse]
    simp only [hm]
    rfl
  rw [hpost]
  exact ⟨rfl, rfl, rfl⟩

/-- Witness for C9: the well-formed non-message body `[]` on a started
transport. -/
theorem C9_onerror_twice_witness :
    jsonParse postBad.body = some (.jarr []) ∧
    ((startedT.handlePostMessage postBad).2.2.filter isErrCb).length = 2 :=
  ⟨rfl, (C9_onerror_twice startedT postBad (.jarr []) rfl rfl rfl rfl rfl rfl).2.1⟩

/-- C10 (implicit): the 4 MiB cap is checked only against the declared
`Content-Length` header — a missing header is read as `"0"` and an
unparseable one as `NaN`, neither of which trips the cap — so every POST
handled while active with a JSON content type whose header is absent,
unparseable, or declares at most 4 MiB reaches the body parse, whatever the
body's actual byte length. -/
theorem C10_cap_is_header_only (t : ServerSentEventsTransport) (r : PostReq)
    (hact : t.isActive = true) (hctrl : t.streamController = true)
    (hct : ctHasJson r = true) (hsz : declaredOver r = false) :
    ¬(t.handlePostMessage r).2.1.status = 413 ∧
    TEvent.bodyParse ∈ (t.handlePostMessage r).2.2 ∧
    (∀ q : PostReq, q.contentLength = none → declaredOver q = false) ∧
    (∀ q : PostReq, parseIntJs (q.contentLength.getD "0") = none →
        declaredOver q = false) ∧
    (∀ q : PostReq, ∀ n : Int,
        parseIntJs (q.contentLength.getD "0") = some n →
        n ≤ (MAX_MSG_SIZE : Int) → declaredOver q = false) := by
  refine ⟨?_, ?_, ?_, ?_, ?_⟩
  · -- never 413 once the declared-size check passes
    rw [ServerSentEventsTransport.handlePostMessage,
      if_neg (by simp [hact, hctrl]), if_neg (by simp [hct]),
      if_neg (by simp [hsz])]
    cases hp : jsonParse r.body with
    | none => simp
    | some j =>
        cases hmj : ServerSentEventsTransport.handleMessage j with
        | mk res evs =>
            cases res with
            | ok u => simp [hmj]
            | error msg => simp [hmj]
  · rw [ServerSentEventsTransport.handlePostMessage,
      if_neg (by simp [hact, hctrl]), if_neg (by simp [hct]),
      if_neg (by simp [hsz])]
    cases hp : jsonParse r.body with
    | none => simp
    | some j =>
        cases hmj : ServerSentEventsTransport.handleMessage j with
        | mk res evs =>
            cases res with
            | ok u => simp [hmj]
            | error msg => simp [hmj]
  · intro q hq
    rw [declaredOver, hq]
    rfl
  · intro q hq
    rw [declaredOver, hq]
  · intro q n hq hn
    rw [declaredOver, hq]
    simp
    omega

/-- Witness for C10: a header-less JSON POST on a started transport. -/
theorem C10_cap_is_header_only_witness :
    postTiny.contentLength = none ∧
    TEvent.bodyParse ∈ (startedT.handlePostMessage postTiny).2.2 :=
  ⟨rfl, (C10_cap_is_header_only startedT postTiny rfl rfl rfl rfl).2.1⟩
